import Mathlib

/-!
Shallow embedding of the social-graph / content-visibility core of the
`backend-api-service` (Rust + MongoDB).  Each MongoDB collection is modelled
as a Lean `List` of records; `find_one` becomes `List.find?` on the filter
predicate, `find_one_and_update` / `find_one_and_delete` become the
`updateFirst` / `deleteFirst` operations below (they act on the first
matching document, as MongoDB does, and `ReturnDocument::After` is modelled
by returning the updated document).  `ObjectId` values are modelled as `Nat`;
the id that MongoDB assigns on `insert_one` is passed in as an explicit
`newId` argument.  `ObjectId::from_str` on payload member-id strings (whose
parse failures the source silently skips) is modelled faithfully by
`parseObjectId`; path/identity ids that the source parses with `?` are taken
as already-parsed `Nat` values except where a claim depends on the parsing.
`DateTime<Utc>` instants are modelled as `Int`; `f64` coordinates, and the
spherical distances MongoDB computes inside `$geoNear`, are modelled as
exact rationals (the core never computes on them, it only passes them to the
store, so the geo distance is an external oracle argument `dist`).
-/

namespace SocialCore

/-- Hexadecimal digit value of a character, both lower and upper case,
following the hex decoding used by `bson::oid::ObjectId`. -/
def hexDigitVal (c : Char) : Option Nat :=
  if ('0' ≤ c && c ≤ '9') then some (c.toNat - '0'.toNat)
  else if ('a' ≤ c && c ≤ 'f') then some (c.toNat - 'a'.toNat + 10)
  else if ('A' ≤ c && c ≤ 'F') then some (c.toNat - 'A'.toNat + 10)
  else none

/-- Model of `ObjectId::from_str`: exactly 24 hexadecimal characters parse
to a numeric id, anything else is a parse failure. -/
def parseObjectId (s : String) : Option Nat :=
  if s.length = 24 then
    s.data.foldl (fun acc c => acc.bind (fun n => (hexDigitVal c).map (fun d => n * 16 + d)))
      (some 0)
  else none

/-- Status of a friendship edge, from `friend_model.rs`. -/
inductive FriendStatus where
  | Pending
  | Accepted
deriving DecidableEq

/-- Friendship edge, from `friend_model.rs` (`Friend`). -/
structure Friend where
  id : Option Nat
  status : FriendStatus
  user_id : Nat
  friend_id : Nat
deriving DecidableEq

/-- Group record, from `group_model.rs` (`Group`). -/
structure Group where
  id : Option Nat
  name : String
  creator_id : Nat
  members : List Nat
deriving DecidableEq

/-- Media type, from `message_model.rs`. -/
inductive MediaType where
  | Image
  | Video
deriving DecidableEq

/-- Media record, from `message_model.rs` (`Media`); the `f64` duration is
modelled as a rational. -/
structure Media where
  media_type : MediaType
  url : String
  duration : Option Rat
deriving DecidableEq

/-- GeoJSON point, from `story_model.rs` (`Location`); the two `f64`
coordinates are modelled as rationals. -/
structure Location where
  location_type : String
  coordinates : Rat × Rat
deriving DecidableEq

/-- Story record, from `story_model.rs` (`Story`); `expires_at` is an
instant modelled as `Int`. -/
structure Story where
  id : Option Nat
  user_id : Nat
  location : Location
  media : Media
  expires_at : Int
deriving DecidableEq

/-- Message record, from `message_model.rs` (`Message`). -/
structure Message where
  id : Option Nat
  content : String
  sender_id : Nat
  recipient_id : Nat
  is_group : Bool
  media : Option Media
  read : Bool
deriving DecidableEq

/-- Payload of `create_group`, from `group_model.rs` (`CreateGroup`). -/
structure CreateGroup where
  name : String
  members : List String

/-- Payload of `update_group`, from `group_model.rs` (`UpdateGroup`). -/
structure UpdateGroup where
  name : String

/-- Payload of `add_group_members`, from `group_model.rs`. -/
structure AddGroupMembers where
  members : List String

/-- Payload of the send-message operations, from `message_model.rs`
(`CreateMessage`). -/
structure CreateMessage where
  content : String
  media : Option Media

/-- Query parameters of `get_nearby_stories`, from `story_model.rs`
(`NearbyQueryParams`); `f64` values modelled as rationals. -/
structure NearbyQueryParams where
  latitude : Rat
  longitude : Rat
  radius : Option Rat

/-- Service-level errors.  Each constructor stands for one distinct error
message produced by the source services (the `Err("...".into())` strings),
plus `validationFailed` for `payload.validate()` failures and `invalidId`
for an `ObjectId::from_str` failure propagated with `?`. -/
inductive Err where
  | validationFailed
  | invalidId
  | groupNotFoundOrNotMember
  | groupNotFoundOrNotCreator
  | groupNotFoundOrNotAuthorized
  | failedToUpdateGroupMembers
  | onlyCreatorCanRemoveOthers
  | cannotRemoveLastMember
  | creatorCannotBeRemoved
  | failedToRemoveMember
  | storyNotFound
  | storyNotFoundOrNoAccess
  | selfFriendRequest
  | friendAlreadyExists
  | friendRequestNotFound
  | selfMessage
  | recipientNotFriend
  | messageNotFoundOrNotSender
  | storageFailure
deriving DecidableEq

/-- Rust `match option { Some(v) => Ok(v), None => Err(e) }`, the shape every
service uses to turn a store lookup result into its `Result`. -/
def okOr (o : Option α) (e : Err) : Except Err α :=
  match o with
  | some x => .ok x
  | none => .error e

/-- Model of MongoDB `find_one_and_update` with `ReturnDocument::After`:
update the first document matching `p` with `f`, returning the collection
afterwards together with the updated document; `none` when no document
matches. -/
def updateFirst (p : α → Bool) (f : α → α) : List α → Option (List α × α)
  | [] => none
  | x :: xs =>
    if p x then some (f x :: xs, f x)
    else (updateFirst p f xs).map (fun r => (x :: r.1, r.2))

/-- Model of MongoDB `find_one_and_delete`: remove the first document
matching `p`, returning the collection afterwards together with the removed
document; `none` when no document matches. -/
def deleteFirst (p : α → Bool) : List α → Option (List α × α)
  | [] => none
  | x :: xs =>
    if p x then some (xs, x)
    else (deleteFirst p xs).map (fun r => (x :: r.1, r.2))

/-- Validator check shared by `CreateGroup` and `UpdateGroup`: the group
name must be between 3 and 50 characters. -/
def validGroupName (name : String) : Bool :=
  3 ≤ name.length && name.length ≤ 50

/-- Model of `CreateGroup::validate`. -/
def CreateGroup.validate (p : CreateGroup) : Bool :=
  validGroupName p.name

/-- Model of `UpdateGroup::validate`. -/
def UpdateGroup.validate (p : UpdateGroup) : Bool :=
  validGroupName p.name

/-- Model of `CreateMessage::validate`: content at most 1000 characters
(the nested `Media` field carries no `#[validate]` attribute in the source,
so it is not validated). -/
def CreateMessage.validate (p : CreateMessage) : Bool :=
  p.content.length ≤ 1000

/-- Model of `group_service::create_group`.  The creator id arrives as a
string and is parsed with `?`; each payload member string is parsed and, on
success, appended unless already contained in the accumulated member list
(which starts as `vec![creator_id]`).  The inserted group is returned with
the id `newId` assigned by the store. -/
def create_group (groups : List Group) (payload : CreateGroup) (creator_id : String)
    (newId : Nat) : Except Err (List Group × Group) :=
  if !payload.validate then .error .validationFailed
  else
    match parseObjectId creator_id with
    | none => .error .invalidId
    | some creator =>
      let members := payload.members.foldl
        (fun acc s =>
          match parseObjectId s with
          | some i => if acc.contains i then acc else acc ++ [i]
          | none => acc)
        [creator]
      let g : Group := { id := some newId, name := payload.name, creator_id := creator,
                         members := members }
      .ok (groups ++ [g], g)

/-- Model of `group_service::update_group`: `find_one_and_update` on the
filter `_id = group_id AND (creator_id = user_id OR members contains
user_id)`, setting the name. -/
def update_group (groups : List Group) (group_id : Nat) (payload : UpdateGroup)
    (user_id : Nat) : Except Err (List Group × Group) :=
  if !payload.validate then .error .validationFailed
  else
    okOr (updateFirst
        (fun g => g.id == some group_id && (g.creator_id == user_id || g.members.contains user_id))
        (fun g => { g with name := payload.name }) groups)
      .groupNotFoundOrNotAuthorized

/-- Member-id batch computed by `group_service::add_group_members`: each
payload string that parses and is not already among the group members
before the call is pushed (the source checks `group.members`, not the batch
built so far). -/
def newMembersOf (g : Group) (payload : AddGroupMembers) : List Nat :=
  payload.members.foldl
    (fun acc s =>
      match parseObjectId s with
      | some i => if g.members.contains i then acc else acc ++ [i]
      | none => acc)
    []

/-- Model of `group_service::add_group_members`: find the group by
`_id = group_id AND creator_id = user_id`, compute the batch of new member
ids, return the group unchanged when the batch is empty, otherwise `$push`
the batch with `find_one_and_update` on the same filter. -/
def add_group_members (groups : List Group) (group_id : Nat) (payload : AddGroupMembers)
    (user_id : Nat) : Except Err (List Group × Group) :=
  match groups.find? (fun g => g.id == some group_id && g.creator_id == user_id) with
  | none => .error .groupNotFoundOrNotCreator
  | some group =>
    let new_members := newMembersOf group payload
    if new_members.isEmpty then .ok (groups, group)
    else
      okOr (updateFirst
          (fun g => g.id == some group_id && g.creator_id == user_id)
          (fun g => { g with members := g.members ++ new_members }) groups)
        .failedToUpdateGroupMembers

/-- Model of `group_service::remove_group_member`: find the group by
`_id = group_id AND members contains member_id`; reject a non-creator
removing someone else, then reject removing the last member, then reject
removing the creator; otherwise `$pull` the member (which removes every
occurrence) with `find_one_and_update` on the same filter. -/
def remove_group_member (groups : List Group) (group_id : Nat) (member_id : Nat)
    (user_id : Nat) : Except Err (List Group × Group) :=
  match groups.find? (fun g => g.id == some group_id && g.members.contains member_id) with
  | none => .error .groupNotFoundOrNotMember
  | some group =>
    let is_creator := group.creator_id == user_id
    let is_self_remove := member_id == user_id
    if !is_creator && !is_self_remove then .error .onlyCreatorCanRemoveOthers
    else if group.members.length ≤ 1 then .error .cannotRemoveLastMember
    else if group.creator_id == member_id then .error .creatorCannotBeRemoved
    else
      okOr (updateFirst
          (fun g => g.id == some group_id && g.members.contains member_id)
          (fun g => { g with members := g.members.filter (fun m => m ≠ member_id) }) groups)
        .failedToRemoveMember

/-- Model of `friend_service::send_friend_request`: reject a self-request,
reject when any edge between the pair already exists in either direction
(whatever its status), otherwise insert one `Pending` edge owned by the
requester, with the store-assigned id `newId`. -/
def send_friend_request (friends : List Friend) (user_id : Nat) (friend_id : Nat)
    (newId : Nat) : Except Err (List Friend × Friend) :=
  if user_id == friend_id then .error .selfFriendRequest
  else if (friends.find? (fun f =>
      (f.user_id == user_id && f.friend_id == friend_id) ||
      (f.user_id == friend_id && f.friend_id == user_id))).isSome then
    .error .friendAlreadyExists
  else
    let f : Friend := { id := some newId, status := .Pending, user_id := user_id,
                        friend_id := friend_id }
    .ok (friends ++ [f], f)

/-- Model of `friend_service::accept_friend_request`: `find_one_and_update`
on the filter `_id = request_id AND friend_id = user_id AND status =
Pending`, setting the status to `Accepted`. -/
def accept_friend_request (friends : List Friend) (request_id : Nat) (user_id : Nat) :
    Except Err (List Friend × Friend) :=
  okOr (updateFirst
      (fun f => f.id == some request_id && f.friend_id == user_id && f.status == FriendStatus.Pending)
      (fun f => { f with status := .Accepted }) friends)
    .friendRequestNotFound

/-- Accepted-edge filter used verbatim (as a `find_one` / `$lookup` filter
document) by `send_direct_message`, `get_story_by_id` and
`get_friend_stories`: some edge connects `a` and `b` in either direction
with status `Accepted`. -/
def hasAcceptedEdge (friends : List Friend) (a : Nat) (b : Nat) : Bool :=
  (friends.find? (fun f =>
    ((f.user_id == a && f.friend_id == b) || (f.user_id == b && f.friend_id == a)) &&
    f.status == FriendStatus.Accepted)).isSome

/-- Group-membership filter `_id = group_id AND members contains user_id`
used by `send_group_message` (and `get_group_messages`). -/
def memberOfGroup (groups : List Group) (group_id : Nat) (user_id : Nat) : Bool :=
  (groups.find? (fun g => g.id == some group_id && g.members.contains user_id)).isSome

/-- Model of `message_service::send_direct_message`: validate the payload,
reject messaging oneself, require an `Accepted` edge between sender and
recipient, then insert the message with `is_group = false` and
`read = false`. -/
def send_direct_message (friends : List Friend) (messages : List Message)
    (user_id : Nat) (recipient_id : Nat) (payload : CreateMessage) (newId : Nat) :
    Except Err (List Message × Message) :=
  if !payload.validate then .error .validationFailed
  else if user_id == recipient_id then .error .selfMessage
  else if !hasAcceptedEdge friends user_id recipient_id then .error .recipientNotFriend
  else
    let m : Message := { id := some newId, content := payload.content, sender_id := user_id,
                         recipient_id := recipient_id, is_group := false,
                         media := payload.media, read := false }
    .ok (messages ++ [m], m)

/-- Model of `message_service::send_group_message`: validate the payload,
require the sender to be a member of the group, then insert the message
with `is_group = true`, `recipient_id = group_id` and `read = true`. -/
def send_group_message (groups : List Group) (messages : List Message)
    (user_id : Nat) (group_id : Nat) (payload : CreateMessage) (newId : Nat) :
    Except Err (List Message × Message) :=
  if !payload.validate then .error .validationFailed
  else if !memberOfGroup groups group_id user_id then .error .groupNotFoundOrNotMember
  else
    let m : Message := { id := some newId, content := payload.content, sender_id := user_id,
                         recipient_id := group_id, is_group := true,
                         media := payload.media, read := true }
    .ok (messages ++ [m], m)

/-- Model of `message_service::delete_message`: `find_one_and_delete` on
the filter `_id = message_id AND sender_id = user_id`; when the deleted
message carries media, `file_service::delete_file` (an external object
store call, modelled by the oracle `deleteFile`, `true` meaning success) is
awaited afterwards and its failure is propagated with `?`.  The result is
the message collection after the call together with the outcome, so a
failed media release still leaves the record deleted. -/
def delete_message (messages : List Message) (deleteFile : String → Bool)
    (message_id : Nat) (user_id : Nat) : List Message × Except Err Message :=
  match deleteFirst (fun m => m.id == some message_id && m.sender_id == user_id) messages with
  | none => (messages, .error .messageNotFoundOrNotSender)
  | some r =>
    match r.2.media with
    | some media =>
      if deleteFile media.url then (r.1, .ok r.2) else (r.1, .error .storageFailure)
    | none => (r.1, .ok r.2)

/-- Descending `expires_at` comparison used as the `$sort` stage of
`get_friend_stories`. -/
def byExpiryDesc (a : Story) (b : Story) : Bool :=
  b.expires_at ≤ a.expires_at

/-- Model of `story_service::get_friend_stories` (the aggregation
pipeline): keep the stories whose owner is linked to the viewer by an
`Accepted` edge in either direction (the `$lookup` + `friendship ≠ []`
match) and whose `expires_at` is strictly greater than `now`, sort by
`expires_at` descending, and keep the first 100 (`$limit: 100`). -/
def get_friend_stories (stories : List Story) (friends : List Friend)
    (user_id : Nat) (now : Int) : List Story :=
  ((stories.filter (fun s =>
      hasAcceptedEdge friends user_id s.user_id && decide (now < s.expires_at))).mergeSort
    byExpiryDesc).take 100

/-- Distance-ascending, then `expires_at`-descending comparison: the
`$sort` stage of `get_nearby_stories`, with `dist` the spherical distance
MongoDB computed in `$geoNear`. -/
def byDistThenExpiry (dist : Story → Rat) (a : Story) (b : Story) : Bool :=
  dist a < dist b || (dist a == dist b && decide (b.expires_at ≤ a.expires_at))

/-- Model of `story_service::get_nearby_stories` (the aggregation
pipeline): `$geoNear` keeps the stories within `radius` metres (default
5000) of the query point that also match `expires_at > now`; the distance
computation happens inside MongoDB and is modelled by the oracle `dist`;
then `$sort` by distance ascending and `expires_at` descending, and
`$limit: 50`. -/
def get_nearby_stories (stories : List Story) (dist : Story → Rat)
    (params : NearbyQueryParams) (now : Int) : List Story :=
  let radius := params.radius.getD 5000
  ((stories.filter (fun s => decide (dist s ≤ radius) && decide (now < s.expires_at))).mergeSort
    (byDistThenExpiry dist)).take 50

/-- Model of `story_service::get_story_by_id`: fetch the story by `_id`;
when the viewer is not the owner and no `Accepted` edge links viewer and
owner, re-query the collection for `_id = story_id AND expires_at > now`
and fail when that finds nothing; otherwise return the story. -/
def get_story_by_id (stories : List Story) (friends : List Friend)
    (story_id : Nat) (user_id : Nat) (now : Int) : Except Err Story :=
  match stories.find? (fun s => s.id == some story_id) with
  | none => .error .storyNotFound
  | some story =>
    if story.user_id != user_id then
      if !hasAcceptedEdge friends user_id story.user_id then
        if (stories.find? (fun s =>
            s.id == some story_id && decide (now < s.expires_at))).isSome then
          .ok story
        else .error .storyNotFoundOrNoAccess
      else .ok story
    else .ok story

/-! ### Lemmas about the modelled store primitives -/

theorem updateFirst_isSome (p : α → Bool) (f : α → α) (l : List α) :
    (updateFirst p f l).isSome = true ↔ ∃ x ∈ l, p x = true := by
  induction l with
  | nil => simp [updateFirst]
  | cons a l ih => cases h : p a <;> simp [updateFirst, h, ih]

theorem updateFirst_eq_none (p : α → Bool) (f : α → α) (l : List α) :
    updateFirst p f l = none ↔ ∀ x ∈ l, p x = false := by
  induction l with
  | nil => simp [updateFirst]
  | cons a l ih => cases h : p a <;> simp [updateFirst, h, ih]

theorem updateFirst_some (p : α → Bool) (f : α → α) :
    ∀ {l ys a}, updateFirst p f l = some (ys, a) →
      ∃ l₁ x l₂, l = l₁ ++ x :: l₂ ∧ (∀ y ∈ l₁, p y = false) ∧ p x = true ∧
        a = f x ∧ ys = l₁ ++ f x :: l₂ := by
  intro l
  induction l with
  | nil => intro ys a h; simp [updateFirst] at h
  | cons b l ih =>
    intro ys a h
    cases hb : p b with
    | true =>
      rw [updateFirst, if_pos hb] at h
      obtain ⟨h1, h2⟩ := Prod.mk.injEq .. ▸ Option.some.injEq .. ▸ h
      exact ⟨[], b, l, rfl, by simp, hb, h2.symm, by simp [h1.symm]⟩
    | false =>
      rw [updateFirst, if_neg (by simp [hb])] at h
      rw [Option.map_eq_some'] at h
      obtain ⟨⟨ys1, a1⟩, hrec, heq⟩ := h
      obtain ⟨hys, ha⟩ := Prod.mk.injEq .. ▸ heq
      obtain ⟨l₁, x, l₂, hl, hnone, hx, hax, hys1⟩ := ih hrec
      exact ⟨b :: l₁, x, l₂, by simp [hl], by
          intro y hy
          rcases List.mem_cons.mp hy with h | h
          · exact h ▸ hb
          · exact hnone y h,
        hx, ha ▸ hax, by simp [hys.symm, hys1]⟩

theorem deleteFirst_eq_none (p : α → Bool) (l : List α) :
    deleteFirst p l = none ↔ ∀ x ∈ l, p x = false := by
  induction l with
  | nil => simp [deleteFirst]
  | cons a l ih => cases h : p a <;> simp [deleteFirst, h, ih]

theorem deleteFirst_some (p : α → Bool) :
    ∀ {l ys a}, deleteFirst p l = some (ys, a) →
      ∃ l₁ l₂, l = l₁ ++ a :: l₂ ∧ (∀ y ∈ l₁, p y = false) ∧ p a = true ∧
        ys = l₁ ++ l₂ := by
  intro l
  induction l with
  | nil => intro ys a h; simp [deleteFirst] at h
  | cons b l ih =>
    intro ys a h
    cases hb : p b with
    | true =>
      rw [deleteFirst, if_pos hb] at h
      have hys : ys = l := (congrArg Prod.fst (Option.some.inj h)).symm
      have ha : a = b := (congrArg Prod.snd (Option.some.inj h)).symm
      exact ⟨[], l, by simp [ha], by simp, by rw [ha]; exact hb, by simp [hys]⟩
    | false =>
      rw [deleteFirst, if_neg (by simp [hb])] at h
      rw [Option.map_eq_some'] at h
      obtain ⟨⟨ys1, a1⟩, hrec, heq⟩ := h
      have hys : ys = b :: ys1 := (congrArg Prod.fst heq).symm
      have ha : a = a1 := (congrArg Prod.snd heq).symm
      subst hys; subst ha
      obtain ⟨l₁, l₂, hl, hnone, hx, hys1⟩ := ih hrec
      exact ⟨b :: l₁, l₂, by simp [hl], by
          intro y hy
          rcases List.mem_cons.mp hy with h | h
          · exact h ▸ hb
          · exact hnone y h,
        hx, by simp [hys1]⟩

theorem updateFirst_of_find? (p : α → Bool) (f : α → α) {l : List α} {x : α}
    (h : l.find? p = some x) : ∃ ys, updateFirst p f l = some (ys, f x) := by
  induction l with
  | nil => simp at h
  | cons b l ih =>
    cases hb : p b with
    | true =>
      rw [List.find?_cons_of_pos _ hb] at h
      have hbx : b = x := Option.some.inj h
      subst hbx
      exact ⟨f b :: l, by rw [updateFirst, if_pos hb]⟩
    | false =>
      rw [List.find?_cons_of_neg _ (by simp [hb])] at h
      obtain ⟨ys, hys⟩ := ih h
      exact ⟨b :: ys, by rw [updateFirst, if_neg (by simp [hb]), hys]; rfl⟩

theorem okOr_isOk (o : Option α) (e : Err) : (okOr o e).isOk = o.isSome := by
  cases o <;> rfl

theorem okOr_eq_ok (o : Option α) (e : Err) (x : α) : okOr o e = .ok x ↔ o = some x := by
  cases o <;> simp [okOr]

theorem okOr_eq_error (o : Option α) (e : Err) (e2 : Err) :
    okOr o e = .error e2 ↔ (o = none ∧ e = e2) := by
  cases o <;> simp [okOr]

/-! ### C1: who may rename a group -/

/-- C1 counterexample: in the group with creator 1 and members `[1, 2]`,
user 2 — a member who is not the creator — successfully renames the group,
so a rename is not restricted to the creator. -/
theorem C1_counterexample :
    update_group [{ id := some 1, name := "Old Name", creator_id := 1, members := [1, 2] }]
        1 { name := "New Name" } 2 =
      .ok ([{ id := some 1, name := "New Name", creator_id := 1, members := [1, 2] }],
           { id := some 1, name := "New Name", creator_id := 1, members := [1, 2] }) ∧
    (2 : Nat) ≠ 1 :=
  ⟨rfl, by decide⟩

/-- C1 (amended): `update_group` succeeds exactly when the payload name is
valid and the group exists with the acting user as its creator OR among its
members (so any member may rename); on success the returned group carries
the payload name.  A non-member rename finds no matching document, so
nothing is written. -/
theorem C1_rename_authorization (groups : List Group) (gid : Nat) (p : UpdateGroup) (u : Nat) :
    ((update_group groups gid p u).isOk = true ↔
      (p.validate = true ∧ ∃ g ∈ groups, g.id = some gid ∧ (g.creator_id = u ∨ u ∈ g.members))) ∧
    (∀ gs g, update_group groups gid p u = .ok (gs, g) → g.name = p.name) := by
  constructor
  · cases hv : p.validate with
    | false => simp [update_group, hv, Except.isOk, Except.toBool]
    | true =>
      rw [update_group, if_neg (by simp [hv]), okOr_isOk, updateFirst_isSome]
      constructor
      · rintro ⟨g, hg, hpg⟩
        simp only [Bool.and_eq_true, Bool.or_eq_true, beq_iff_eq] at hpg
        refine ⟨rfl, g, hg, hpg.1, ?_⟩
        rcases hpg.2 with h | h
        · exact Or.inl h
        · exact Or.inr (by simpa using h)
      · rintro ⟨_, g, hg, hid, hauth⟩
        refine ⟨g, hg, ?_⟩
        simp only [Bool.and_eq_true, Bool.or_eq_true, beq_iff_eq]
        refine ⟨hid, ?_⟩
        rcases hauth with h | h
        · exact Or.inl h
        · exact Or.inr (by simpa using h)
  · intro gs g h
    by_cases hv : p.validate = true
    · rw [update_group, if_neg (by simp [hv]), okOr_eq_ok] at h
      obtain ⟨l₁, x, l₂, _, _, _, hax, _⟩ := updateFirst_some _ _ h
      rw [hax]
    · rw [update_group, if_pos (by simp [hv])] at h
      exact absurd h (by simp)

/-- C1 witness: the amended theorem applied to the creator renaming a
concrete singleton group. -/
theorem C1_witness :
    ({ id := some 1, name := "New Name", creator_id := 1, members := [1] } : Group).name =
      "New Name" :=
  (C1_rename_authorization
      [{ id := some 1, name := "Old Name", creator_id := 1, members := [1] }]
      1 { name := "New Name" } 1).2
    [{ id := some 1, name := "New Name", creator_id := 1, members := [1] }]
    { id := some 1, name := "New Name", creator_id := 1, members := [1] } rfl

/-! ### C4: guards of remove_group_member -/

/-- C4 counterexample: the group with id 1 has creator 10 as its only
member; the removal of member 10 attempted by user 20 fails, but with the
only-the-creator-can-remove-others error, not with the last-member
validation error the claim promises for every acting user. -/
theorem C4_counterexample :
    remove_group_member [{ id := some 1, name := "Grp", creator_id := 10, members := [10] }]
        1 10 20 = .error .onlyCreatorCanRemoveOthers ∧
    Err.onlyCreatorCanRemoveOthers ≠ Err.cannotRemoveLastMember ∧
    ([10] : List Nat).length ≤ 1 :=
  ⟨rfl, by decide, by decide⟩

/-- C4 (amended): when the group is found with M among its members,
`remove_group_member` fails whenever the group has at most one member and
whenever M is the creator — for every acting user U — and the failure is
the last-member validation error exactly on the authorized paths (U is the
creator or is self-removing); an unauthorized U gets the
only-creator-can-remove error instead.  Every failure writes nothing. -/
theorem C4_remove_member_guards (groups : List Group) (gid M U : Nat) (g : Group)
    (hfind : groups.find? (fun g => g.id == some gid && g.members.contains M) = some g) :
    (g.members.length ≤ 1 → (remove_group_member groups gid M U).isOk = false) ∧
    (g.members.length ≤ 1 → (g.creator_id = U ∨ M = U) →
      remove_group_member groups gid M U = .error .cannotRemoveLastMember) ∧
    (g.creator_id = M → (remove_group_member groups gid M U).isOk = false) ∧
    (¬(g.creator_id = U ∨ M = U) →
      remove_group_member groups gid M U = .error .onlyCreatorCanRemoveOthers) := by
  have hbody : remove_group_member groups gid M U =
      (if !(g.creator_id == U) && !(M == U) then .error .onlyCreatorCanRemoveOthers
       else if g.members.length ≤ 1 then .error .cannotRemoveLastMember
       else if g.creator_id == M then .error .creatorCannotBeRemoved
       else okOr (updateFirst (fun g2 => g2.id == some gid && g2.members.contains M)
           (fun g2 => { g2 with members := g2.members.filter (fun m => m ≠ M) }) groups)
         .failedToRemoveMember) := by
    simp only [remove_group_member, hfind]
  refine ⟨?_, ?_, ?_, ?_⟩
  · intro hlen
    by_cases hauth : (!(g.creator_id == U) && !(M == U)) = true
    · rw [hbody, if_pos hauth]; rfl
    · rw [hbody, if_neg hauth, if_pos hlen]; rfl
  · intro hlen hok
    have hauth : (!(g.creator_id == U) && !(M == U)) = false := by
      rcases hok with h | h <;> simp [h]
    rw [hbody, if_neg (by simp [hauth]), if_pos hlen]
  · intro hcm
    by_cases hauth : (!(g.creator_id == U) && !(M == U)) = true
    · rw [hbody, if_pos hauth]; rfl
    · by_cases hlen : g.members.length ≤ 1
      · rw [hbody, if_neg hauth, if_pos hlen]; rfl
      · rw [hbody, if_neg hauth, if_neg hlen, if_pos (by simp [hcm])]; rfl
  · intro hnot
    rw [not_or] at hnot
    rw [hbody, if_pos (by simp [hnot.1, hnot.2])]

/-- C4 witness: the creator of a singleton group self-removing hits the
last-member validation error. -/
theorem C4_witness :
    remove_group_member [{ id := some 1, name := "Grp", creator_id := 7, members := [7] }]
        1 7 7 = .error .cannotRemoveLastMember :=
  (C4_remove_member_guards
      [{ id := some 1, name := "Grp", creator_id := 7, members := [7] }] 1 7 7
      { id := some 1, name := "Grp", creator_id := 7, members := [7] } rfl).2.1
    (by decide) (Or.inl rfl)

/-! ### C10: group invariants across the group operations -/

/-- C10: evaluation at the failing input.  The payload repeats the single
new member id `...007` twice; `add_group_members` checks each id only
against the member set before the call, so the id is pushed twice and the
resulting member list `[5, 7, 7]` has duplicates, violating the
no-duplicates invariant the claim states (and the data-model intent that
`members` is a set). -/
theorem C10_duplicate_batch_breaks_nodup :
    add_group_members [{ id := some 1, name := "Grp", creator_id := 5, members := [5] }]
        1 { members := ["000000000000000000000007", "000000000000000000000007"] } 5 =
      .ok ([{ id := some 1, name := "Grp", creator_id := 5, members := [5, 7, 7] }],
           { id := some 1, name := "Grp", creator_id := 5, members := [5, 7, 7] }) ∧
    ¬ ([5, 7, 7] : List Nat).Nodup :=
  ⟨rfl, by decide⟩

/-! ### C6: sending friend requests -/

/-- C6: `send_friend_request` rejects a self-request; rejects the request
when any edge already links the pair in either direction and either status;
otherwise inserts exactly one new Pending edge owned by the requester; and
after any success the reversed request fails with the already-exists
error. -/
theorem C6_send_request (friends : List Friend) (a b nid : Nat) :
    (a = b → send_friend_request friends a b nid = .error .selfFriendRequest) ∧
    (a ≠ b →
      (∃ f ∈ friends, (f.user_id = a ∧ f.friend_id = b) ∨ (f.user_id = b ∧ f.friend_id = a)) →
      send_friend_request friends a b nid = .error .friendAlreadyExists) ∧
    (a ≠ b →
      (∀ f ∈ friends, ¬((f.user_id = a ∧ f.friend_id = b) ∨ (f.user_id = b ∧ f.friend_id = a))) →
      send_friend_request friends a b nid =
        .ok (friends ++ [{ id := some nid, status := .Pending, user_id := a, friend_id := b }],
             { id := some nid, status := .Pending, user_id := a, friend_id := b })) ∧
    (∀ fs f nid2, send_friend_request friends a b nid = .ok (fs, f) →
      send_friend_request fs b a nid2 = .error .friendAlreadyExists) := by
  refine ⟨?_, ?_, ?_, ?_⟩
  · intro h
    simp [send_friend_request, h]
  · intro hne hex
    rw [send_friend_request, if_neg (by simp [hne]), if_pos ?_]
    rw [List.find?_isSome]
    obtain ⟨f, hf, hor⟩ := hex
    refine ⟨f, hf, ?_⟩
    rcases hor with ⟨h1, h2⟩ | ⟨h1, h2⟩ <;> simp [h1, h2]
  · intro hne hnone
    have hfind : friends.find? (fun f =>
        (f.user_id == a && f.friend_id == b) || (f.user_id == b && f.friend_id == a)) = none := by
      rw [List.find?_eq_none]
      intro f hf
      have := hnone f hf
      simp only [not_or, not_and] at this
      simp only [Bool.or_eq_true, Bool.and_eq_true, beq_iff_eq, not_or, not_and]
      exact ⟨fun h1 => this.1 h1, fun h1 => this.2 h1⟩
    rw [send_friend_request, if_neg (by simp [hne]), if_neg (by simp [hfind])]
  · intro fs f nid2 h
    by_cases hab : a = b
    · rw [send_friend_request, if_pos (by simp [hab])] at h
      exact absurd h (by simp)
    · rw [send_friend_request, if_neg (by simp [hab])] at h
      by_cases hex : (friends.find? (fun f =>
          (f.user_id == a && f.friend_id == b) || (f.user_id == b && f.friend_id == a))).isSome
      · rw [if_pos hex] at h
        exact absurd h (by simp)
      · rw [if_neg hex] at h
        have hfs : fs = friends ++
            [{ id := some nid, status := .Pending, user_id := a, friend_id := b }] :=
          (congrArg Prod.fst (Except.ok.inj h)).symm
        rw [send_friend_request, if_neg (by simp [Ne.symm hab]), if_pos ?_]
        rw [List.find?_isSome]
        refine ⟨{ id := some nid, status := .Pending, user_id := a, friend_id := b },
          by simp [hfs], by simp⟩

/-- C6 witness: a request between distinct unrelated users 1 and 2 on an
empty edge collection succeeds and inserts the Pending edge, by the third
part of the theorem. -/
theorem C6_witness :
    send_friend_request [] 1 2 5 =
      .ok ([{ id := some 5, status := .Pending, user_id := 1, friend_id := 2 }],
           { id := some 5, status := .Pending, user_id := 1, friend_id := 2 }) :=
  (C6_send_request [] 1 2 5).2.2.1 (by decide) (by simp)

/-! ### C7: accepting friend requests -/

/-- C7: `accept_friend_request` succeeds exactly when the edge with the
given id exists with status Pending and the acting user is its recipient
(`friend_id`); any other case fails with the not-found error and updates
nothing; on success the edge becomes Accepted, and — edge ids being unique —
a second accept of the same edge fails with the not-found error. -/
theorem C7_accept_request (friends : List Friend) (eid u : Nat)
    (huniq : friends.countP (fun f => f.id == some eid) ≤ 1) :
    ((accept_friend_request friends eid u).isOk = true ↔
      (∃ f ∈ friends, f.id = some eid ∧ f.friend_id = u ∧ f.status = .Pending)) ∧
    (¬(∃ f ∈ friends, f.id = some eid ∧ f.friend_id = u ∧ f.status = .Pending) →
      accept_friend_request friends eid u = .error .friendRequestNotFound) ∧
    (∀ fs f, accept_friend_request friends eid u = .ok (fs, f) →
      f.status = .Accepted ∧
      accept_friend_request fs eid u = .error .friendRequestNotFound) := by
  refine ⟨?_, ?_, ?_⟩
  · rw [accept_friend_request, okOr_isOk, updateFirst_isSome]
    constructor
    · rintro ⟨f, hf, hpf⟩
      simp only [Bool.and_eq_true, beq_iff_eq] at hpf
      exact ⟨f, hf, hpf.1.1, hpf.1.2, hpf.2⟩
    · rintro ⟨f, hf, h1, h2, h3⟩
      exact ⟨f, hf, by simp [h1, h2, h3]⟩
  · intro hnone
    rw [accept_friend_request, okOr_eq_error]
    refine ⟨?_, rfl⟩
    rw [← Option.not_isSome_iff_eq_none, updateFirst_isSome]
    rintro ⟨f, hf, hpf⟩
    simp only [Bool.and_eq_true, beq_iff_eq] at hpf
    exact hnone ⟨f, hf, hpf.1.1, hpf.1.2, hpf.2⟩
  · intro fs f h
    rw [accept_friend_request, okOr_eq_ok] at h
    obtain ⟨l₁, x, l₂, hl, hl₁, hx, hfx, hfs⟩ := updateFirst_some _ _ h
    simp only [Bool.and_eq_true, beq_iff_eq] at hx
    constructor
    · rw [hfx]
    · rw [accept_friend_request, okOr_eq_error]
      refine ⟨?_, rfl⟩
      rw [updateFirst_eq_none, hfs]
      have hcount : l₂.countP (fun f => f.id == some eid) = 0 := by
        rw [hl, List.countP_append, List.countP_cons] at huniq
        simp only [hx.1.1, beq_self_eq_true, if_true] at huniq
        omega
      rw [List.countP_eq_zero] at hcount
      intro y hy
      rcases List.mem_append.mp hy with hy1 | hy2
      · exact hl₁ y hy1
      · rcases List.mem_cons.mp hy2 with rfl | hy3
        · simp
        · have := hcount y hy3
          simp only [beq_iff_eq] at this ⊢
          simp [this]

/-- C7 witness: accepting the Pending edge 9 (from 1 to 2) as user 2
succeeds and turns it Accepted, after which a second accept fails, by the
third part of the theorem. -/
theorem C7_witness :
    ({ id := some 9, status := .Accepted, user_id := 1, friend_id := 2 } : Friend).status =
        FriendStatus.Accepted ∧
    accept_friend_request
        [{ id := some 9, status := .Accepted, user_id := 1, friend_id := 2 }] 9 2 =
      .error .friendRequestNotFound :=
  (C7_accept_request [{ id := some 9, status := .Pending, user_id := 1, friend_id := 2 }]
      9 2 (by decide)).2.2
    [{ id := some 9, status := .Accepted, user_id := 1, friend_id := 2 }]
    { id := some 9, status := .Accepted, user_id := 1, friend_id := 2 } rfl

/-! ### C8: deleting messages -/

/-- C8: `delete_message` removes a message only when the acting user is its
sender — when no message matches both the id and the sender, it fails with
the not-found error and the collection is unchanged, and every successful
deletion is of a message whose sender is the acting user.  On a deletion of
a message with media the record is removed first and the media release runs
afterwards: when the release fails, the storage error is propagated even
though the record is already gone from the collection. -/
theorem C8_delete_message (messages : List Message) (deleteFile : String → Bool)
    (mid u : Nat) :
    ((∀ m ∈ messages, ¬(m.id = some mid ∧ m.sender_id = u)) →
      delete_message messages deleteFile mid u = (messages, .error .messageNotFoundOrNotSender)) ∧
    (∀ m2, (delete_message messages deleteFile mid u).2 = .ok m2 → m2.sender_id = u) ∧
    (∀ m ∈ messages, m.id = some mid → m.sender_id = u →
      messages.countP (fun x => x.id == some mid) ≤ 1 →
      m ∉ (delete_message messages deleteFile mid u).1 ∧
      (∀ med, m.media = some med → deleteFile med.url = false →
        (delete_message messages deleteFile mid u).2 = .error .storageFailure) ∧
      (∀ med, m.media = some med → deleteFile med.url = true →
        (delete_message messages deleteFile mid u).2 = .ok m) ∧
      (m.media = none → (delete_message messages deleteFile mid u).2 = .ok m)) := by
  refine ⟨?_, ?_, ?_⟩
  · intro hnone
    have hdel : deleteFirst (fun m => m.id == some mid && m.sender_id == u) messages = none := by
      rw [deleteFirst_eq_none]
      intro x hx
      have hx2 := hnone x hx
      simp only [not_and] at hx2
      by_cases hid : x.id = some mid
      · simp [hid, hx2 hid]
      · simp [hid]
    simp only [delete_message, hdel]
  · intro m2 h
    cases hdel : deleteFirst (fun m => m.id == some mid && m.sender_id == u) messages with
    | none =>
      simp only [delete_message, hdel] at h
      exact absurd h (by simp)
    | some r =>
      obtain ⟨rest, m0⟩ := r
      obtain ⟨l₁, l₂, hl, hl₁, hpm0, hrest⟩ := deleteFirst_some _ hdel
      have hsender : m0.sender_id = u := by
        simp only [Bool.and_eq_true, beq_iff_eq] at hpm0
        exact hpm0.2
      simp only [delete_message, hdel] at h
      cases hmed : m0.media with
      | none =>
        rw [hmed] at h
        have h2 : m0 = m2 := Except.ok.inj h
        rw [← h2]; exact hsender
      | some med =>
        rw [hmed] at h
        cases hdf : deleteFile med.url with
        | true =>
          simp only [hdf] at h
          have h2 : m0 = m2 := by simpa using h
          rw [← h2]; exact hsender
        | false =>
          simp [hdf] at h
  · intro m hm hmid hsender hcount
    have hpm : (m.id == some mid && m.sender_id == u) = true := by simp [hmid, hsender]
    cases hdel : deleteFirst (fun x => x.id == some mid && x.sender_id == u) messages with
    | none =>
      rw [deleteFirst_eq_none] at hdel
      exact absurd hpm (by simp [hdel m hm])
    | some r =>
      obtain ⟨rest, m0⟩ := r
      obtain ⟨l₁, l₂, hl, hl₁, hpm0, hrest⟩ := deleteFirst_some _ hdel
      have hm0id : m0.id = some mid := by
        simp only [Bool.and_eq_true, beq_iff_eq] at hpm0
        exact hpm0.1
      have hl₂ : m ∉ l₂ := by
        intro h2
        rw [hl, List.countP_append, List.countP_cons] at hcount
        have c2 : 0 < l₂.countP (fun x => x.id == some mid) :=
          List.countP_pos_iff.mpr ⟨m, h2, by simp [hmid]⟩
        simp only [hm0id, beq_self_eq_true, if_true] at hcount
        omega
      have hmeq : m = m0 := by
        rcases List.mem_append.mp (hl ▸ hm) with h1 | h2
        · exact absurd hpm (by simp [hl₁ m h1])
        · rcases List.mem_cons.mp h2 with h | h
          · exact h
          · exact absurd h hl₂
      have hnotin : m ∉ rest := by
        rw [hrest]
        intro hmem
        rcases List.mem_append.mp hmem with h1 | h2
        · exact absurd hpm (by simp [hl₁ m h1])
        · exact hl₂ h2
      refine ⟨?_, ?_, ?_, ?_⟩
      · simp only [delete_message, hdel]
        rw [← hmeq]
        cases hmd : m.media with
        | none => exact hnotin
        | some med =>
          cases hdf : deleteFile med.url with
          | true => simp only [hdf, if_true]; exact hnotin
          | false => simp only [hdf, Bool.false_eq_true, if_false]; exact hnotin
      · intro med hmed hdf
        simp only [delete_message, hdel]
        rw [← hmeq, hmed]
        simp [hdf]
      · intro med hmed hdf
        simp only [delete_message, hdel]
        rw [← hmeq, hmed]
        simp [hdf]
      · intro hmed
        simp only [delete_message, hdel]
        rw [← hmeq, hmed]

/-- C8 witness: the sender deleting their media message while the object
store fails still removes the record and reports the storage error. -/
theorem C8_witness :
    ({ id := some 3, content := "hi", sender_id := 1, recipient_id := 2, is_group := false,
       media := some { media_type := .Image, url := "u", duration := none }, read := false } :
        Message) ∉
      (delete_message
        [{ id := some 3, content := "hi", sender_id := 1, recipient_id := 2, is_group := false,
           media := some { media_type := .Image, url := "u", duration := none }, read := false }]
        (fun _ => false) 3 1).1 ∧
    (delete_message
        [{ id := some 3, content := "hi", sender_id := 1, recipient_id := 2, is_group := false,
           media := some { media_type := .Image, url := "u", duration := none }, read := false }]
        (fun _ => false) 3 1).2 = .error .storageFailure := by
  have h := (C8_delete_message
      [{ id := some 3, content := "hi", sender_id := 1, recipient_id := 2, is_group := false,
         media := some { media_type := .Image, url := "u", duration := none }, read := false }]
      (fun _ => false) 3 1).2.2
      { id := some 3, content := "hi", sender_id := 1, recipient_id := 2, is_group := false,
        media := some { media_type := .Image, url := "u", duration := none }, read := false }
      (by simp) rfl rfl (by decide)
  exact ⟨h.1, h.2.1 { media_type := .Image, url := "u", duration := none } rfl rfl⟩

/-! ### C9: flags on persisted messages -/

/-- C9: every message persisted by `send_direct_message` carries
`is_group = false` and `read = false` (with the sender and recipient as
given), and every message persisted by `send_group_message` carries
`is_group = true`, `recipient_id` equal to the group id and `read = true`;
in both cases the stored collection is the old one with exactly that
message appended. -/
theorem C9_message_flags (friends : List Friend) (groups : List Group)
    (messages : List Message) (u r gid nid : Nat) (p : CreateMessage) :
    (∀ ms m, send_direct_message friends messages u r p nid = .ok (ms, m) →
      m.is_group = false ∧ m.read = false ∧ m.sender_id = u ∧ m.recipient_id = r ∧
      ms = messages ++ [m]) ∧
    (∀ ms m, send_group_message groups messages u gid p nid = .ok (ms, m) →
      m.is_group = true ∧ m.read = true ∧ m.sender_id = u ∧ m.recipient_id = gid ∧
      ms = messages ++ [m]) := by
  constructor
  · intro ms m h
    rw [send_direct_message] at h
    split_ifs at h
    all_goals
      simp only [Except.ok.injEq, Prod.mk.injEq] at h
      obtain ⟨hms, hm⟩ := h
      subst hm; subst hms
      exact ⟨rfl, rfl, rfl, rfl, rfl⟩
  · intro ms m h
    rw [send_group_message] at h
    split_ifs at h
    all_goals
      simp only [Except.ok.injEq, Prod.mk.injEq] at h
      obtain ⟨hms, hm⟩ := h
      subst hm; subst hms
      exact ⟨rfl, rfl, rfl, rfl, rfl⟩

/-- C9 witness: concrete sends — user 1 messaging their accepted friend 2
directly, and user 1 posting into group 3 — produce records with the
claimed flags. -/
theorem C9_witness :
    ({ id := some 7, content := "hi", sender_id := 1, recipient_id := 2, is_group := false,
       media := none, read := false } : Message).is_group = false ∧
    ({ id := some 8, content := "yo", sender_id := 1, recipient_id := 3, is_group := true,
       media := none, read := true } : Message).read = true := by
  have hd := (C9_message_flags
      [{ id := some 4, status := .Accepted, user_id := 1, friend_id := 2 }]
      [{ id := some 3, name := "Grp", creator_id := 1, members := [1] }]
      [] 1 2 3 7 { content := "hi", media := none }).1
      [{ id := some 7, content := "hi", sender_id := 1, recipient_id := 2, is_group := false,
         media := none, read := false }]
      { id := some 7, content := "hi", sender_id := 1, recipient_id := 2, is_group := false,
        media := none, read := false } rfl
  have hg := (C9_message_flags
      [{ id := some 4, status := .Accepted, user_id := 1, friend_id := 2 }]
      [{ id := some 3, name := "Grp", creator_id := 1, members := [1] }]
      [] 1 2 3 8 { content := "yo", media := none }).2
      [{ id := some 8, content := "yo", sender_id := 1, recipient_id := 3, is_group := true,
         media := none, read := true }]
      { id := some 8, content := "yo", sender_id := 1, recipient_id := 3, is_group := true,
        media := none, read := true } rfl
  exact ⟨hd.1, hg.2.1⟩

/-! ### Lemmas about the story listing pipelines -/

theorem byExpiryDesc_trans : ∀ a b c : Story, byExpiryDesc a b → byExpiryDesc b c →
    byExpiryDesc a c := by
  intro a b c hab hbc
  simp only [byExpiryDesc, decide_eq_true_eq] at *
  omega

theorem byExpiryDesc_total : ∀ a b : Story, byExpiryDesc a b || byExpiryDesc b a := by
  intro a b
  simp only [byExpiryDesc, Bool.or_eq_true, decide_eq_true_eq]
  omega

/-- Every story returned by `get_friend_stories` is a stored story with an
accepted edge to the viewer and a strictly-future expiry. -/
theorem mem_get_friend_stories {stories : List Story} {friends : List Friend}
    {u : Nat} {now : Int} {s : Story} (h : s ∈ get_friend_stories stories friends u now) :
    s ∈ stories ∧ hasAcceptedEdge friends u s.user_id = true ∧ now < s.expires_at := by
  have h2 := List.mem_of_mem_take h
  rw [List.mem_mergeSort, List.mem_filter] at h2
  refine ⟨h2.1, ?_, ?_⟩
  · have h3 := h2.2
    simp only [Bool.and_eq_true, decide_eq_true_eq] at h3
    exact h3.1
  · have h3 := h2.2
    simp only [Bool.and_eq_true, decide_eq_true_eq] at h3
    exact h3.2

/-- When at most 100 stories qualify, every qualifying story is returned by
`get_friend_stories`. -/
theorem get_friend_stories_complete {stories : List Story} {friends : List Friend}
    {u : Nat} {now : Int}
    (hcap : (stories.filter (fun s =>
      hasAcceptedEdge friends u s.user_id && decide (now < s.expires_at))).length ≤ 100)
    {s : Story} (hs : s ∈ stories) (hedge : hasAcceptedEdge friends u s.user_id = true)
    (hexp : now < s.expires_at) :
    s ∈ get_friend_stories stories friends u now := by
  unfold get_friend_stories
  rw [List.take_of_length_le (by rw [List.length_mergeSort]; exact hcap)]
  rw [List.mem_mergeSort, List.mem_filter]
  exact ⟨hs, by simp [hedge, hexp]⟩

/-- Every story returned by `get_nearby_stories` is a stored story within
the radius with a strictly-future expiry. -/
theorem mem_get_nearby_stories {stories : List Story} {dist : Story → Rat}
    {params : NearbyQueryParams} {now : Int} {s : Story}
    (h : s ∈ get_nearby_stories stories dist params now) :
    s ∈ stories ∧ dist s ≤ params.radius.getD 5000 ∧ now < s.expires_at := by
  unfold get_nearby_stories at h
  have h2 := List.mem_of_mem_take h
  rw [List.mem_mergeSort, List.mem_filter] at h2
  refine ⟨h2.1, ?_, ?_⟩
  · have h3 := h2.2
    simp only [Bool.and_eq_true, decide_eq_true_eq] at h3
    exact h3.1
  · have h3 := h2.2
    simp only [Bool.and_eq_true, decide_eq_true_eq] at h3
    exact h3.2

/-- When at most 50 stories qualify, every stored story within the radius
and unexpired is returned by `get_nearby_stories`. -/
theorem get_nearby_stories_complete {stories : List Story} {dist : Story → Rat}
    {params : NearbyQueryParams} {now : Int}
    (hcap : (stories.filter (fun s =>
      decide (dist s ≤ params.radius.getD 5000) && decide (now < s.expires_at))).length ≤ 50)
    {s : Story} (hs : s ∈ stories) (hdist : dist s ≤ params.radius.getD 5000)
    (hexp : now < s.expires_at) :
    s ∈ get_nearby_stories stories dist params now := by
  unfold get_nearby_stories
  rw [List.take_of_length_le (by rw [List.length_mergeSort]; exact hcap)]
  rw [List.mem_mergeSort, List.mem_filter]
  exact ⟨hs, by simp [hdist, hexp]⟩

/-! ### C3: the expiry boundary of story visibility -/

/-- C3 counterexample: a story whose `expires_at` equals `now` is already
excluded from both listings — the filters use strict `expires_at > now` —
although the claim says it is still included at `now == expires_at` (it is
not yet "expired" there, `now > expires_at` being false). -/
theorem C3_counterexample :
    ¬ ((5 : Int) > 5) ∧
    ({ id := some 1, user_id := 2,
       location := { location_type := "Point", coordinates := (0, 0) },
       media := { media_type := .Image, url := "u", duration := none },
       expires_at := 5 } : Story) ∉
      get_nearby_stories
        [{ id := some 1, user_id := 2,
           location := { location_type := "Point", coordinates := (0, 0) },
           media := { media_type := .Image, url := "u", duration := none },
           expires_at := 5 }]
        (fun _ => 0) { latitude := 0, longitude := 0, radius := none } 5 ∧
    ({ id := some 1, user_id := 2,
       location := { location_type := "Point", coordinates := (0, 0) },
       media := { media_type := .Image, url := "u", duration := none },
       expires_at := 5 } : Story) ∉
      get_friend_stories
        [{ id := some 1, user_id := 2,
           location := { location_type := "Point", coordinates := (0, 0) },
           media := { media_type := .Image, url := "u", duration := none },
           expires_at := 5 }]
        [{ id := some 9, status := .Accepted, user_id := 1, friend_id := 2 }] 1 5 := by
  refine ⟨by decide, ?_, ?_⟩
  · intro h
    have h2 := (mem_get_nearby_stories h).2.2
    exact absurd h2 (by decide)
  · intro h
    have h2 := (mem_get_friend_stories h).2.2
    exact absurd h2 (by decide)

/-- C3 (amended): a stored story is excluded from both listings whenever
`expires_at ≤ now` (so already at the instant `now = expires_at`), and is
included exactly when `now < expires_at` — provided, for `listNearby`, it
lies within the radius and at most 50 stories qualify, and, for
`listFriendsStories`, its owner has an accepted edge to the viewer and at
most 100 stories qualify; `getById` by the owner succeeds at every instant,
expired or not. -/
theorem C3_expiry_boundary (stories : List Story) (friends : List Friend)
    (dist : Story → Rat) (params : NearbyQueryParams) (u : Nat) (now : Int)
    (s : Story) (hs : s ∈ stories) :
    (s.expires_at ≤ now →
      s ∉ get_nearby_stories stories dist params now ∧
      s ∉ get_friend_stories stories friends u now) ∧
    (now < s.expires_at → dist s ≤ params.radius.getD 5000 →
      (stories.filter (fun t =>
        decide (dist t ≤ params.radius.getD 5000) && decide (now < t.expires_at))).length ≤ 50 →
      s ∈ get_nearby_stories stories dist params now) ∧
    (now < s.expires_at → hasAcceptedEdge friends u s.user_id = true →
      (stories.filter (fun t =>
        hasAcceptedEdge friends u t.user_id && decide (now < t.expires_at))).length ≤ 100 →
      s ∈ get_friend_stories stories friends u now) ∧
    (∀ sid, stories.find? (fun t => t.id == some sid) = some s →
      get_story_by_id stories friends sid s.user_id now = .ok s) := by
  refine ⟨?_, ?_, ?_, ?_⟩
  · intro hle
    constructor
    · intro h
      have h2 := (mem_get_nearby_stories h).2.2
      omega
    · intro h
      have h2 := (mem_get_friend_stories h).2.2
      omega
  · intro hexp hdist hcap
    exact get_nearby_stories_complete hcap hs hdist hexp
  · intro hexp hedge hcap
    exact get_friend_stories_complete hcap hs hedge hexp
  · intro sid hfind
    simp [get_story_by_id, hfind]

/-- C3 witness: the amended theorem applied to a story already expired at
the query instant, which both listings exclude. -/
theorem C3_witness :
    ({ id := some 4, user_id := 2,
       location := { location_type := "Point", coordinates := (0, 0) },
       media := { media_type := .Image, url := "u", duration := none },
       expires_at := -3 } : Story) ∉
      get_nearby_stories
        [{ id := some 4, user_id := 2,
           location := { location_type := "Point", coordinates := (0, 0) },
           media := { media_type := .Image, url := "u", duration := none },
           expires_at := -3 }]
        (fun _ => 0) { latitude := 0, longitude := 0, radius := none } 0 ∧
    ({ id := some 4, user_id := 2,
       location := { location_type := "Point", coordinates := (0, 0) },
       media := { media_type := .Image, url := "u", duration := none },
       expires_at := -3 } : Story) ∉
      get_friend_stories
        [{ id := some 4, user_id := 2,
           location := { location_type := "Point", coordinates := (0, 0) },
           media := { media_type := .Image, url := "u", duration := none },
           expires_at := -3 }]
        [] 9 0 :=
  (C3_expiry_boundary
      [{ id := some 4, user_id := 2,
         location := { location_type := "Point", coordinates := (0, 0) },
         media := { media_type := .Image, url := "u", duration := none },
         expires_at := -3 }]
      [] (fun _ => 0) { latitude := 0, longitude := 0, radius := none } 9 0
      { id := some 4, user_id := 2,
        location := { location_type := "Point", coordinates := (0, 0) },
        media := { media_type := .Image, url := "u", duration := none },
        expires_at := -3 }
      (by simp)).1 (by decide)

/-! ### C5: visibility rule of get_story_by_id -/

/-- C5 counterexample: the story with `expires_at = 0` queried at `now = 0`
is not yet expired in the claim's sense (`now > expires_at` is false), yet
the lookup by the non-friend viewer 3 fails: the public fallback re-query
uses the strict filter `expires_at > now`. -/
theorem C5_counterexample :
    get_story_by_id
        [{ id := some 1, user_id := 2,
           location := { location_type := "Point", coordinates := (0, 0) },
           media := { media_type := .Image, url := "u", duration := none },
           expires_at := 0 }]
        [] 1 3 0 = .error .storyNotFoundOrNoAccess ∧
    ¬ ((0 : Int) > 0) :=
  ⟨rfl, by decide⟩

/-- C5 (amended): when the story with the queried id is found (story ids
being unique), `get_story_by_id` returns it exactly when the viewer owns
it, or an accepted edge links viewer and owner in either direction, or
`now < expires_at` (strictly unexpired — the public fallback); in every
other case it fails with the not-found-or-no-access error. -/
theorem C5_get_story_visibility (stories : List Story) (friends : List Friend)
    (sid viewer : Nat) (now : Int) (s : Story)
    (hfind : stories.find? (fun t => t.id == some sid) = some s)
    (hids : (stories.map Story.id).Nodup) :
    (get_story_by_id stories friends sid viewer now = .ok s ↔
      (s.user_id = viewer ∨ hasAcceptedEdge friends viewer s.user_id = true ∨
        now < s.expires_at)) ∧
    (¬(s.user_id = viewer ∨ hasAcceptedEdge friends viewer s.user_id = true ∨
        now < s.expires_at) →
      get_story_by_id stories friends sid viewer now = .error .storyNotFoundOrNoAccess) := by
  have hmem : s ∈ stories := List.mem_of_find?_eq_some hfind
  have hsid : s.id = some sid := by
    have := List.find?_some hfind
    simpa using this
  have hbody : get_story_by_id stories friends sid viewer now =
      (if s.user_id != viewer then
        (if !hasAcceptedEdge friends viewer s.user_id then
          (if (stories.find? (fun t =>
              t.id == some sid && decide (now < t.expires_at))).isSome then
            Except.ok s
          else .error .storyNotFoundOrNoAccess)
        else .ok s)
      else .ok s) := by
    simp only [get_story_by_id, hfind]
  by_cases hown : s.user_id = viewer
  · rw [hbody, if_neg (by simp [hown])]
    constructor
    · constructor
      · intro _; exact Or.inl hown
      · intro _; rfl
    · intro hno; exact absurd (Or.inl hown) hno
  · rw [hbody, if_pos (by simp [hown])]
    by_cases hedge : hasAcceptedEdge friends viewer s.user_id = true
    · rw [if_neg (by simp [hedge])]
      constructor
      · constructor
        · intro _; exact Or.inr (Or.inl hedge)
        · intro _; rfl
      · intro hno; exact absurd (Or.inr (Or.inl hedge)) hno
    · rw [if_pos (by simp [Bool.not_eq_true] at hedge; simp [hedge])]
      by_cases hexp : now < s.expires_at
      · rw [if_pos ?_]
        · constructor
          · constructor
            · intro _; exact Or.inr (Or.inr hexp)
            · intro _; rfl
          · intro hno; exact absurd (Or.inr (Or.inr hexp)) hno
        · rw [List.find?_isSome]
          exact ⟨s, hmem, by simp [hsid, hexp]⟩
      · rw [if_neg ?_]
        · constructor
          · constructor
            · intro h; exact absurd h (by simp)
            · intro hor
              rcases hor with h | h | h
              · exact absurd h hown
              · exact absurd h hedge
              · exact absurd h hexp
          · intro _; rfl
        · intro h2
          rw [Option.isSome_iff_exists] at h2
          obtain ⟨t, ht⟩ := h2
          have htmem : t ∈ stories := List.mem_of_find?_eq_some ht
          have htp := List.find?_some ht
          simp only [Bool.and_eq_true, beq_iff_eq, decide_eq_true_eq] at htp
          have hts : t = s :=
            List.inj_on_of_nodup_map hids htmem hmem (by rw [htp.1, hsid])
          rw [hts] at htp
          exact hexp htp.2

/-- C5 witness: the amended theorem gives the public fallback — an
unexpired story returned to the unrelated viewer 3. -/
theorem C5_witness :
    get_story_by_id
        [{ id := some 1, user_id := 2,
           location := { location_type := "Point", coordinates := (0, 0) },
           media := { media_type := .Image, url := "u", duration := none },
           expires_at := 5 }]
        [] 1 3 0 =
      .ok { id := some 1, user_id := 2,
            location := { location_type := "Point", coordinates := (0, 0) },
            media := { media_type := .Image, url := "u", duration := none },
            expires_at := 5 } :=
  ((C5_get_story_visibility
      [{ id := some 1, user_id := 2,
         location := { location_type := "Point", coordinates := (0, 0) },
         media := { media_type := .Image, url := "u", duration := none },
         expires_at := 5 }]
      [] 1 3 0
      { id := some 1, user_id := 2,
        location := { location_type := "Point", coordinates := (0, 0) },
        media := { media_type := .Image, url := "u", duration := none },
        expires_at := 5 }
      rfl (by simp)).1).mpr (Or.inr (Or.inr (by decide)))

/-! ### C2: completeness of get_friend_stories -/

/-- Location shared by the stories of the C2 counterexample. -/
def capLoc : Location := { location_type := "Point", coordinates := (0, 0) }

/-- Media shared by the stories of the C2 counterexample. -/
def capMed : Media := { media_type := .Image, url := "m", duration := none }

/-- 101 stories owned by user 2, all alive at instant 0. -/
def capStories : List Story :=
  (List.range 101).map (fun i =>
    { id := some (100 + i), user_id := 2, location := capLoc, media := capMed,
      expires_at := 10 })

/-- Single accepted edge between viewer 1 and owner 2. -/
def capFriends : List Friend :=
  [{ id := some 1, status := .Accepted, user_id := 1, friend_id := 2 }]

/-- C2 counterexample: all 101 stored stories belong to an accepted friend
of viewer 1 and are unexpired at instant 0, yet `get_friend_stories` ends
with `$limit: 100`, so at least one of them is omitted — refuting the
claim's "no omission". -/
theorem C2_counterexample :
    ∃ s ∈ capStories, hasAcceptedEdge capFriends 1 s.user_id = true ∧
      (0 : Int) < s.expires_at ∧ s ∉ get_friend_stories capStories capFriends 1 0 := by
  by_contra hall
  push_neg at hall
  have hsub : capStories ⊆ get_friend_stories capStories capFriends 1 0 := by
    intro s hs
    obtain ⟨i, hi, rfl⟩ := List.mem_map.mp hs
    refine hall _ hs rfl ?_
    show (0 : Int) < 10
    decide
  have hnodup : capStories.Nodup := by
    refine List.Nodup.map ?_ (List.nodup_range _)
    intro a b hab
    have h2 := congrArg Story.id hab
    simp only [Option.some.injEq] at h2
    omega
  have hlen : capStories.length = 101 := by
    simp [capStories]
  have hle := (hnodup.subperm hsub).length_le
  have htake : (get_friend_stories capStories capFriends 1 0).length ≤ 100 := by
    unfold get_friend_stories
    rw [List.length_take]
    exact min_le_left _ _
  omega

/-- C2 (amended): `get_friend_stories` returns only non-expired stories
whose owner is linked to the viewer by an accepted edge in either
direction; it returns every such story whenever at most 100 qualify (the
pipeline caps the result at the 100 of newest expiry); the result is sorted
by `expires_at` descending; and — the edge collection containing no
self-edges, as `send_friend_request` guarantees — never the viewer's own
stories. -/
theorem C2_friend_stories (stories : List Story) (friends : List Friend)
    (u : Nat) (now : Int) :
    (∀ s ∈ get_friend_stories stories friends u now,
      s ∈ stories ∧ hasAcceptedEdge friends u s.user_id = true ∧ now < s.expires_at) ∧
    ((stories.filter (fun s =>
        hasAcceptedEdge friends u s.user_id && decide (now < s.expires_at))).length ≤ 100 →
      ∀ s ∈ stories, hasAcceptedEdge friends u s.user_id = true → now < s.expires_at →
        s ∈ get_friend_stories stories friends u now) ∧
    (get_friend_stories stories friends u now).Pairwise
      (fun a b => b.expires_at ≤ a.expires_at) ∧
    ((∀ f ∈ friends, f.user_id ≠ f.friend_id) →
      ∀ s ∈ get_friend_stories stories friends u now, s.user_id ≠ u) := by
  refine ⟨?_, ?_, ?_, ?_⟩
  · intro s hs
    exact mem_get_friend_stories hs
  · intro hcap s hs hedge hexp
    exact get_friend_stories_complete hcap hs hedge hexp
  · have hp := List.sorted_mergeSort byExpiryDesc_trans byExpiryDesc_total
      (stories.filter (fun s =>
        hasAcceptedEdge friends u s.user_id && decide (now < s.expires_at)))
    have hp2 := hp.imp (fun hab => by simpa [byExpiryDesc] using hab)
    exact hp2.sublist (List.take_sublist _ _)
  · intro hnoself s hs hsu
    have hedge := (mem_get_friend_stories hs).2.1
    rw [hsu] at hedge
    unfold hasAcceptedEdge at hedge
    rw [List.find?_isSome] at hedge
    obtain ⟨f, hf, hpf⟩ := hedge
    simp only [Bool.and_eq_true, Bool.or_eq_true, beq_iff_eq] at hpf
    rcases hpf.1 with ⟨h1, h2⟩ | ⟨h1, h2⟩ <;> exact hnoself f hf (by rw [h1, h2])

/-- C2 witness: a single qualifying story does not hit the cap, and the
completeness part of the theorem places it in the result. -/
theorem C2_witness :
    ({ id := some 1, user_id := 2, location := { location_type := "Point", coordinates := (0, 0) },
       media := { media_type := .Image, url := "m", duration := none },
       expires_at := 5 } : Story) ∈
      get_friend_stories
        [{ id := some 1, user_id := 2,
           location := { location_type := "Point", coordinates := (0, 0) },
           media := { media_type := .Image, url := "m", duration := none },
           expires_at := 5 }]
        [{ id := some 3, status := .Accepted, user_id := 2, friend_id := 1 }] 1 0 :=
  (C2_friend_stories
      [{ id := some 1, user_id := 2,
         location := { location_type := "Point", coordinates := (0, 0) },
         media := { media_type := .Image, url := "m", duration := none },
         expires_at := 5 }]
      [{ id := some 3, status := .Accepted, user_id := 2, friend_id := 1 }] 1 0).2.1
    (by decide) _ (by simp) (by decide) (by decide)

end SocialCore
